import Mathlib

/-!
Verification of the llmite-ai/llms Anthropic provider integration.

This file gives a shallow embedding, in Lean 4, of:

* the provider-agnostic data model of the `llms` package (`Part`, `Message`,
  `Response`, roles) from `llm.go` / `parts.go`;
* the SSE streaming state machine of the custom-HTTP Anthropic client
  (`parseSSEStream` and `processStreamEvent`, `src/anthropic/tools.go`
  lines 685-921), with its accumulation state and callback handling;
* the two generations of the message converter `convertMessages`
  (`src/anthropic/tools.go` lines 579-647 — the legacy, hand-rolled wire
  format — and lines 1419-1499 — the SDK-based one of the current module);
* the non-streaming decode helpers `convertMessageToResponse`
  (`src/anthropic/tools.go` lines 1380-1417) and `UnmarshalResponseContent`
  (`src/unnamed/part_010` lines 576-661).

Modelling conventions, applied throughout:

* Go strings are Lean `String`; `json.RawMessage` / `[]byte` payloads are the
  `String` of their bytes; Go `nil`-able pointers and `error` values are
  `Option`; a Go function returning `(T, error)` with exactly one of the two
  set becomes `Except String T`.
* JSON (un)marshalling of SSE `data:` payloads is abstracted: Go's
  `json.Unmarshal` into the event structs (`MessageStartEvent`,
  `ContentBlockStartEvent`, `ContentBlockDeltaEvent`, ...) is lenient — on any
  JSON object it succeeds and leaves absent fields at their zero values — so a
  well-formed `data:` line is modelled as the record `EventPayload` merging
  the fields each event handler reads, with zero-value defaults.
* An SSE input line is modelled by the sum `SSELine`: `.event s` stands for
  the line `event: s`, `.data p` for a `data: <json>` line whose JSON parses
  to the payload `p`, `.blank` for the empty line, `.other` for any line with
  neither of the two line heads (ignored by the scanner loop, as in Go).
* Error values are their Go message strings (the `fmt.Errorf` text, without
  the outer provider wrapper that `GenerateStream` adds).
-/

namespace Llms

/-- Role is the `llms.Role` string type (`type Role string`). -/
abbrev Role := String

/-- RoleSystem mirrors `llms.RoleSystem`. -/
def RoleSystem : Role := "system"

/-- RoleUser mirrors `llms.RoleUser`. -/
def RoleUser : Role := "user"

/-- RoleAssistant mirrors `llms.RoleAssistant`. -/
def RoleAssistant : Role := "assistant"

/-- Part is the sealed `llms.Part` interface with its three implementations
`TextPart{Text}`, `ToolCallPart{ID, Name, Input}` (the raw JSON input bytes as
a string) and `ToolResultPart{ToolCallID, Name, Result, Error}` (the Go `error`
field as an optional message). -/
inductive Part where
  | text (text : String)
  | toolCall (id name input : String)
  | toolResult (toolCallID name result : String) (error : Option String)
deriving Repr, DecidableEq

/-- Message is `llms.Message`: a role together with the ordered parts. -/
structure Message where
  role : Role
  parts : List Part
deriving Repr, DecidableEq

/-- Response is `llms.Response`; the Go field `Raw any` retains the
provider-native payload, modelled by the type parameter. -/
structure Response (Raw : Type) where
  id : String
  message : Message
  provider : String
  raw : Raw
deriving Repr, DecidableEq

/-- Usage models `anthropic.Usage` (the token counters the streaming claims
need; the remaining Go fields are optional metadata never read by the code
under verification). -/
structure Usage where
  inputTokens : Nat := 0
  outputTokens : Nat := 0
deriving Repr, DecidableEq

/-- CreateMessageResponse models the response envelope
`anthropic.CreateMessageResponse`, restricted to the fields the streaming
state machine reads or writes (`ID`, `Model`, `StopReason`, `StopSequence`,
`Usage`); its `Content` array never flows through the streaming path. -/
structure CreateMessageResponse where
  id : String := ""
  model : String := ""
  stopReason : Option String := none
  stopSequence : Option String := none
  usage : Usage := {}
deriving Repr, DecidableEq

/-- StreamResponse is the `llms.Response` as produced by the streaming path:
its `Raw` field holds the (possibly still absent) working envelope. -/
abbrev StreamResponse := Response (Option CreateMessageResponse)

/-- StreamFunc is `llms.StreamFunc = func(*Response, error) bool`, with the
two nilable arguments as `Option`s. A nil Go callback is `Option StreamFunc`'s
`none` at the use sites. -/
abbrev StreamFunc := Option StreamResponse → Option String → Bool

/-- Delta models `anthropic.Delta`, the sub-payload of a
`content_block_delta` event. -/
structure Delta where
  type : String := ""
  text : String := ""
  partialJSON : String := ""
  thinking : String := ""
  signature : String := ""
deriving Repr, DecidableEq

/-- MessageDelta models `anthropic.MessageDelta` inside a `message_delta`
event. -/
structure MessageDelta where
  stopReason : Option String := none
  stopSequence : Option String := none
deriving Repr, DecidableEq

/-- StreamingContentBlock models `anthropic.StreamingContentBlock`, the
`content_block` of a `content_block_start` event (the fields the state
machine reads). -/
structure StreamingContentBlock where
  type : String := ""
  id : String := ""
  name : String := ""
deriving Repr, DecidableEq

/-- EventPayload merges the unmarshal targets of every stream event handler:
`MessageStartEvent.Message`, `ContentBlockStartEvent.ContentBlock`,
`ContentBlockDeltaEvent.Delta`, `MessageDeltaEvent.Delta`,
`MessageDeltaEvent.Usage` and `ErrorEvent.Error.Message`. Go's
`json.Unmarshal` into each of those structs succeeds on any JSON object and
zeroes absent fields, so one record with zero-value defaults captures what a
well-formed `data:` payload provides to each handler. -/
structure EventPayload where
  message : CreateMessageResponse := {}
  contentBlock : StreamingContentBlock := {}
  delta : Delta := {}
  messageDelta : MessageDelta := {}
  usage : Option Usage := none
  errorMessage : String := ""
deriving Repr, DecidableEq

/-- StreamEvent is `anthropic.StreamEvent`: the SSE `event:` name and the
parsed `data:` payload. -/
structure StreamEvent where
  event : String
  data : EventPayload
deriving Repr, DecidableEq

/-- ToolCallPart models the `*llms.ToolCallPart` the state machine uses as
its open tool-call accumulator (`currentToolCall`). -/
structure ToolCallPart where
  id : String
  name : String
  input : String
deriving Repr, DecidableEq

/-- StreamState bundles the loop-local accumulation variables of
`parseSSEStream`: `anthropicResponse`, `streamingParts`,
`currentTextBuilder`, `currentToolCall` and `responseID`. -/
structure StreamState where
  anthropicResponse : Option CreateMessageResponse := none
  streamingParts : List Part := []
  currentTextBuilder : String := ""
  currentToolCall : Option ToolCallPart := none
  responseID : String := ""
deriving Repr, DecidableEq

/-- textDeltaSnapshot is the snapshot `Response` the `text_delta` handler
builds for the callback, from the state that already holds the appended
fragment: all finalized parts plus, when the text builder is non-empty, one
`TextPart` holding the builder's content. -/
def textDeltaSnapshot (st : StreamState) : StreamResponse :=
  { id := st.responseID
    message :=
      { role := RoleAssistant
        parts := st.streamingParts ++
          (if st.currentTextBuilder.length > 0 then
            [Part.text st.currentTextBuilder]
          else []) }
    provider := "anthropic"
    raw := st.anthropicResponse }

/-- processStreamEvent is `(*Client).processStreamEvent`
(`src/anthropic/tools.go` lines 756-921): it dispatches one complete SSE
event against the accumulation state and returns `(shouldContinue, state)` or
an error. The pure model keeps the Go callback invocations whose boolean
result the Go code discards (`message_stop`, `error`) as discarded `let`
bindings. -/
def processStreamEvent (fn : Option StreamFunc) (event : StreamEvent)
    (st : StreamState) : Except String (Bool × StreamState) :=
  match event.event with
  | "message_start" =>
      .ok (true, { st with
        anthropicResponse := some event.data.message
        responseID := event.data.message.id })
  | "content_block_start" =>
      match event.data.contentBlock.type with
      | "text" => .ok (true, { st with currentTextBuilder := "" })
      | "tool_use" =>
          let tc : ToolCallPart :=
            { id := event.data.contentBlock.id
              name := event.data.contentBlock.name
              input := "\x7b\x7d" }
          .ok (true, { st with currentToolCall := some tc })
      | _ => .ok (true, st)
  | "content_block_delta" =>
      match event.data.delta.type with
      | "text_delta" =>
          let st1 := { st with
            currentTextBuilder := st.currentTextBuilder ++ event.data.delta.text }
          match fn with
          | some f =>
              if f (some (textDeltaSnapshot st1)) none then .ok (true, st1)
              else .ok (false, st1)
          | none => .ok (true, st1)
      | "input_json_delta" =>
          match st.currentToolCall with
          | some tc =>
              let currentInput := if tc.input = "\x7b\x7d" then "" else tc.input
              let tc1 := { tc with input := currentInput ++ event.data.delta.partialJSON }
              .ok (true, { st with currentToolCall := some tc1 })
          | none => .ok (true, st)
      | _ => .ok (true, st)
  | "content_block_stop" =>
      let st1 :=
        if st.currentTextBuilder.length > 0 then
          { st with
            streamingParts := st.streamingParts ++ [Part.text st.currentTextBuilder]
            currentTextBuilder := "" }
        else st
      let st2 :=
        match st1.currentToolCall with
        | some tc =>
            { st1 with
              streamingParts :=
                st1.streamingParts ++ [Part.toolCall tc.id tc.name tc.input]
              currentToolCall := none }
        | none => st1
      .ok (true, st2)
  | "message_delta" =>
      match st.anthropicResponse with
      | some resp =>
          let resp :=
            match event.data.messageDelta.stopReason with
            | some sr => { resp with stopReason := some sr }
            | none => resp
          let resp :=
            match event.data.messageDelta.stopSequence with
            | some ss => { resp with stopSequence := some ss }
            | none => resp
          let resp :=
            match event.data.usage with
            | some u => { resp with usage := u }
            | none => resp
          .ok (true, { st with anthropicResponse := some resp })
      | none => .ok (true, st)
  | "message_stop" =>
      match fn with
      | some f =>
          let _ := f (some
            { id := st.responseID
              message := { role := RoleAssistant, parts := st.streamingParts }
              provider := "anthropic"
              raw := st.anthropicResponse }) none
          .ok (true, st)
      | none => .ok (true, st)
  | "ping" => .ok (true, st)
  | "error" =>
      let _ :=
        match fn with
        | some f => f none (some ("stream error: " ++ event.data.errorMessage))
        | none => true
      .error ("stream error: " ++ event.data.errorMessage)
  | _ => .error ("unknown stream event type: " ++ event.event)

/-- SSELine classifies one physical line of the SSE byte stream the scanner
reads: `.event s` is a line `event: s`, `.data p` a line `data: <json>` whose
JSON object parses (leniently) to `p`, `.blank` the empty line, `.other` any
other line. -/
inductive SSELine where
  | event (name : String)
  | data (payload : EventPayload)
  | blank
  | other
deriving Repr, DecidableEq

/-- CurrentEvent is the event frame `parseSSEStream` accumulates between
blank lines; `data := none` models the Go zero value `Data == ""`. -/
structure CurrentEvent where
  event : String := ""
  data : Option EventPayload := none
deriving Repr, DecidableEq

/-- ScanStep is the outcome of handling one scanned line: keep looping with
updated frame and state, break out of the loop (callback cancellation), or
abort with an error. -/
inductive ScanStep where
  | cont (cur : CurrentEvent) (st : StreamState)
  | cancel (st : StreamState)
  | fail (e : String)
deriving Repr, DecidableEq

/-- scanLine is one iteration of the `for scanner.Scan()` loop body of
`parseSSEStream`: an `event: `-led line overwrites the frame's event name, a
`data: `-led line its data, any other non-blank line is ignored, and a blank
line flushes a frame with non-empty event name and data through
`processStreamEvent` and resets the frame. -/
def scanLine (fn : Option StreamFunc) (l : SSELine) (cur : CurrentEvent)
    (st : StreamState) : ScanStep :=
  match l with
  | .event name => .cont { cur with event := name } st
  | .data payload => .cont { cur with data := some payload } st
  | .other => .cont cur st
  | .blank =>
      match cur.data with
      | some payload =>
          if cur.event ≠ "" then
            match processStreamEvent fn { event := cur.event, data := payload } st with
            | .error e => .fail e
            | .ok (shouldContinue, st1) =>
                if shouldContinue then .cont {} st1 else .cancel st1
          else .cont {} st
      | none => .cont {} st

/-- buildFinalResponse is the code after the scan loop of `parseSSEStream`:
without a `message_start` the call fails with `no message received in
stream`, otherwise the final `Response` is assembled from the accumulated
state. -/
def buildFinalResponse (st : StreamState) : Except String StreamResponse :=
  match st.anthropicResponse with
  | none => .error "no message received in stream"
  | some _ =>
      .ok { id := st.responseID
            message := { role := RoleAssistant, parts := st.streamingParts }
            provider := "anthropic"
            raw := st.anthropicResponse }

/-- sseLoop runs the scan loop of `parseSSEStream` over the remaining lines:
a `.cancel` step is the Go `break`, after which (as after exhausting the
stream) the final response is built from the state reached. -/
def sseLoop (fn : Option StreamFunc) : List SSELine → CurrentEvent → StreamState →
    Except String StreamResponse
  | [], _, st => buildFinalResponse st
  | l :: rest, cur, st =>
      match scanLine fn l cur st with
      | .cont cur1 st1 => sseLoop fn rest cur1 st1
      | .cancel st1 => buildFinalResponse st1
      | .fail e => .error e

/-- parseSSEStream is `(*Client).parseSSEStream` (`src/anthropic/tools.go`
lines 685-754) over an already line-split stream body, starting from the
empty frame and zeroed accumulation state. -/
def parseSSEStream (fn : Option StreamFunc) (lines : List SSELine) :
    Except String StreamResponse :=
  sseLoop fn lines {} {}

/-- runLines replays the scan loop over a list of lines and yields the frame
and state reached, or `none` if the loop would have broken off (error or
callback cancellation) along the way. It lets theorems speak about any
intermediate point of a stream. -/
def runLines (fn : Option StreamFunc) : List SSELine → CurrentEvent → StreamState →
    Option (CurrentEvent × StreamState)
  | [], cur, st => some (cur, st)
  | l :: rest, cur, st =>
      match scanLine fn l cur st with
      | .cont cur1 st1 => runLines fn rest cur1 st1
      | _ => none

/-- partTypeName renders a `Part`'s dynamic type the way Go's `%T` verb does
in the converter error messages. -/
def partTypeName : Part → String
  | .text _ => "llms.TextPart"
  | .toolCall _ _ _ => "llms.ToolCallPart"
  | .toolResult _ _ _ _ => "llms.ToolResultPart"

/-- TextBlockParam models `anthropic.TextBlockParam` of the SDK (the one
field the converter sets). -/
structure TextBlockParam where
  text : String
deriving Repr, DecidableEq

/-- ContentBlockParamUnion models the SDK's request content union as the
three variants `convertMessages` constructs: `OfText`, `OfToolUse` and
`OfToolResult` (the tool result's single text content block as its string,
`IsError` as the flag set when the part's error is non-nil). -/
inductive ContentBlockParamUnion where
  | ofText (text : String)
  | ofToolUse (id name input : String)
  | ofToolResult (toolUseID content : String) (isError : Bool)
deriving Repr, DecidableEq

/-- MessageParam models `anthropic.MessageParam`: wire role and content
blocks. -/
structure MessageParam where
  role : String
  content : List ContentBlockParamUnion
deriving Repr, DecidableEq

/-- MessageParamRoleUser is the SDK constant `anthropic.MessageParamRoleUser`. -/
def MessageParamRoleUser : String := "user"

/-- MessageParamRoleAssistant is the SDK constant
`anthropic.MessageParamRoleAssistant`. -/
def MessageParamRoleAssistant : String := "assistant"

/-- convertSystemParts is the inner loop of the SDK-based `convertMessages`
(`src/anthropic/tools.go` lines 1427-1437) over the parts of a system-role
message at index `i`: each part must be a `TextPart`, appended to the system
prompt in order; any other part fails with the indexed error. -/
def convertSystemParts (i : Nat) : List Part → Except String (List TextBlockParam)
  | [] => .ok []
  | Part.text t :: ps =>
      match convertSystemParts i ps with
      | .error e => .error e
      | .ok rest => .ok ({ text := t } :: rest)
  | p :: _ =>
      .error ("[message " ++ toString i ++ "] anthropic: unsupported message part type: "
        ++ partTypeName p)

/-- convertContentPart is the part switch of the SDK-based `convertMessages`
(`src/anthropic/tools.go` lines 1455-1492) for a non-system message. It is
total because `llms.Part` is a sealed interface with exactly these three
implementations: the Go `default` branch (the `[message %d, part %d]` error)
is unreachable. -/
def convertContentPart : Part → ContentBlockParamUnion
  | .text t => .ofText t
  | .toolCall id name input => .ofToolUse id name input
  | .toolResult toolCallID _ result err => .ofToolResult toolCallID result err.isSome

/-- convertMessagesGo is the indexed message loop of the SDK-based
`convertMessages` (`src/anthropic/tools.go` lines 1423-1496), carrying the
accumulated system prompt and output list. -/
def convertMessagesGo (i : Nat) (system : List TextBlockParam)
    (out : List MessageParam) :
    List Message → Except String (List TextBlockParam × List MessageParam)
  | [] => .ok (system, out)
  | m :: ms =>
      if m.role = RoleSystem then
        match convertSystemParts i m.parts with
        | .error e => .error e
        | .ok blocks => convertMessagesGo (i + 1) (system ++ blocks) out ms
      else if m.role = RoleUser then
        convertMessagesGo (i + 1) system
          (out ++ [{ role := MessageParamRoleUser
                     content := m.parts.map convertContentPart }]) ms
      else if m.role = RoleAssistant then
        convertMessagesGo (i + 1) system
          (out ++ [{ role := MessageParamRoleAssistant
                     content := m.parts.map convertContentPart }]) ms
      else
        .error ("[message " ++ toString i ++ "] anthropic: unsupported message role: "
          ++ m.role)

/-- convertMessages is the SDK-based message converter of the current module
(`src/anthropic/tools.go` lines 1419-1499). -/
def convertMessages (messages : List Message) :
    Except String (List TextBlockParam × List MessageParam) :=
  convertMessagesGo 0 [] [] messages

namespace legacy

/-- RequestTextBlock models the legacy wire type
`anthropic.RequestTextBlock` (text field only, as the converter sets it). -/
structure RequestTextBlock where
  text : String
deriving Repr, DecidableEq

/-- ContentBlock models the legacy `anthropic.ContentBlock` values the
converter builds: `RequestTextBlock`, `RequestToolUseBlock` (whose
`Input map[string]any` came from `json.Unmarshal` of the part's raw input —
represented here by the raw JSON string it was parsed from) and
`RequestToolResultBlock`. -/
inductive ContentBlock where
  | requestText (text : String)
  | requestToolUse (id name input : String)
  | requestToolResult (toolUseID content : String)
deriving Repr, DecidableEq

/-- SystemPrompt is the legacy `anthropic.SystemPrompt`
(`[]RequestTextBlock`). -/
abbrev SystemPrompt := List RequestTextBlock

/-- InputMessage models the legacy `anthropic.InputMessage`. -/
structure InputMessage where
  role : String
  content : List ContentBlock
deriving Repr, DecidableEq

/-- systemPartsLoop is the system-message part loop of the legacy
`convertMessages` (`src/anthropic/tools.go` lines 585-595): note its error
carries no message index, only the offending part's Go type. -/
def systemPartsLoop : List Part → Except String (List RequestTextBlock)
  | [] => .ok []
  | Part.text t :: ps =>
      match systemPartsLoop ps with
      | .error e => .error e
      | .ok rest => .ok ({ text := t } :: rest)
  | p :: _ =>
      .error ("anthropic: unsupported system message part type: " ++ partTypeName p)

/-- partsLoop is the non-system part loop of the legacy `convertMessages`
(`src/anthropic/tools.go` lines 611-641). `jsonOK input` models whether
`json.Unmarshal(p.Input, &map[string]any)` succeeds; on failure the error
names the tool but no index (the wrapped unmarshal error text is elided).
The `default` branch is unreachable: `llms.Part` is sealed. -/
def partsLoop (jsonOK : String → Bool) : List Part → Except String (List ContentBlock)
  | [] => .ok []
  | Part.text t :: ps =>
      match partsLoop jsonOK ps with
      | .error e => .error e
      | .ok rest => .ok (ContentBlock.requestText t :: rest)
  | Part.toolCall id name input :: ps =>
      if jsonOK input then
        match partsLoop jsonOK ps with
        | .error e => .error e
        | .ok rest => .ok (ContentBlock.requestToolUse id name input :: rest)
      else
        .error ("anthropic: failed to unmarshal tool call input JSON for tool '"
          ++ name ++ "'")
  | Part.toolResult toolCallID _ result _ :: ps =>
      match partsLoop jsonOK ps with
      | .error e => .error e
      | .ok rest => .ok (ContentBlock.requestToolResult toolCallID result :: rest)

/-- convertLoop is the message loop of the legacy `convertMessages`
(`src/anthropic/tools.go` lines 583-644): roles are checked before parts,
and none of its errors carries a message index. -/
def convertLoop (jsonOK : String → Bool) (system : SystemPrompt)
    (out : List InputMessage) :
    List Message → Except String (SystemPrompt × List InputMessage)
  | [] => .ok (system, out)
  | m :: ms =>
      if m.role = RoleSystem then
        match systemPartsLoop m.parts with
        | .error e => .error e
        | .ok blocks => convertLoop jsonOK (system ++ blocks) out ms
      else if m.role = RoleUser then
        match partsLoop jsonOK m.parts with
        | .error e => .error e
        | .ok content =>
            convertLoop jsonOK system (out ++ [{ role := "user", content := content }]) ms
      else if m.role = RoleAssistant then
        match partsLoop jsonOK m.parts with
        | .error e => .error e
        | .ok content =>
            convertLoop jsonOK system
              (out ++ [{ role := "assistant", content := content }]) ms
      else
        .error ("anthropic: unsupported message role: " ++ m.role)

/-- convertMessages is the legacy message converter
(`src/anthropic/tools.go` lines 579-647), parameterized by the
`json.Unmarshal` success oracle for tool-call inputs. -/
def convertMessages (jsonOK : String → Bool) (messages : List Message) :
    Except String (SystemPrompt × List InputMessage) :=
  convertLoop jsonOK [] [] messages

end legacy

/-- ContentBlockUnion models the SDK's `anthropic.ContentBlockUnion` as the
fields `convertMessageToResponse` reads: the `Type` discriminator, `Text`,
`ToolUseID`, `Name` and the raw JSON `Input`. -/
structure ContentBlockUnion where
  type : String := ""
  text : String := ""
  toolUseID : String := ""
  name : String := ""
  input : String := ""
deriving Repr, DecidableEq

/-- AnthMessage models the SDK's `anthropic.Message` as read by
`convertMessageToResponse`: id and content array. -/
structure AnthMessage where
  id : String := ""
  content : List ContentBlockUnion := []
deriving Repr, DecidableEq

/-- formatContentBlock renders a block the way Go's `%v` verb does in the
unsupported-block error of `convertMessageToResponse` (braced
space-separated fields). -/
def formatContentBlock (b : ContentBlockUnion) : String :=
  "\x7b" ++ b.type ++ " " ++ b.text ++ " " ++ b.toolUseID ++ " " ++ b.name
    ++ " " ++ b.input ++ "\x7d"

/-- convertBlocksLoop is the content loop of `convertMessageToResponse`
(`src/anthropic/tools.go` lines 1388-1403): text and tool_use blocks become
parts, every other block appends one error to the collected list. -/
def convertBlocksLoop (i : Nat) (parts : List Part) (errs : List String) :
    List ContentBlockUnion → List Part × List String
  | [] => (parts, errs)
  | b :: bs =>
      match b.type with
      | "text" => convertBlocksLoop (i + 1) (parts ++ [Part.text b.text]) errs bs
      | "tool_use" =>
          convertBlocksLoop (i + 1)
            (parts ++ [Part.toolCall b.toolUseID b.name b.input]) errs bs
      | _ =>
          convertBlocksLoop (i + 1) parts
            (errs ++ ["anthropic: unsupported content block type at index "
              ++ toString i ++ ": " ++ formatContentBlock b]) bs

/-- convertMessageToResponse is `convertMessageToResponse`
(`src/anthropic/tools.go` lines 1380-1417). The Go function returns the
always-built Response together with `errors.Join(errs)`; the joined error is
nil exactly when the collected list is empty, so the model returns the
Response paired with that list. -/
def convertMessageToResponse (msg : AnthMessage) : Response AnthMessage × List String :=
  let res := convertBlocksLoop 0 [] [] msg.content
  ({ id := msg.id
     message := { role := RoleAssistant, parts := res.1 }
     provider := "anthropic"
     raw := msg }, res.2)

/-- RawContentElem models one already-JSON-parsed element of the response
`content` array fed to `UnmarshalResponseContent`: the `type` discriminator
plus the union of the fields of the thirteen recognized block structs, with
zero-value defaults (Go's lenient `json.Unmarshal` into each block struct
succeeds on any JSON object). -/
structure RawContentElem where
  type : String := ""
  text : String := ""
  id : String := ""
  name : String := ""
  input : String := ""
  thinking : String := ""
  signature : String := ""
  data : String := ""
  serverName : String := ""
  toolUseID : String := ""
  isError : Bool := false
  fileID : String := ""
  title : String := ""
  url : String := ""
  stdout : String := ""
  stderr : String := ""
  returnCode : Int := 0
deriving Repr, DecidableEq

/-- ResponseContent is the `anthropic.ResponseContent` union of
`src/unnamed/part_010`, one constructor per recognized response block type
(each carrying its principal fields). -/
inductive ResponseContent where
  | text (text : String)
  | toolUse (id name input : String)
  | thinking (thinking signature : String)
  | redactedThinking (data : String)
  | serverToolUse (id name : String)
  | mcpToolUse (id name serverName : String)
  | mcpToolResult (toolUseID : String) (isError : Bool)
  | containerUpload (fileID : String)
  | webSearchToolResult (toolUseID : String)
  | webSearchResult (title url : String)
  | codeExecutionToolResult (toolUseID : String)
  | codeExecutionResult (stdout stderr : String) (returnCode : Int)
  | codeExecutionOutput (fileID : String)
deriving Repr, DecidableEq

/-- unmarshalResponseContentLoop is the element loop of
`UnmarshalResponseContent` (`src/unnamed/part_010` lines 583-658): it
dispatches on the `type` tag, appends the decoded block for each of the
thirteen recognized tags and silently skips every other element. -/
def unmarshalResponseContentLoop : List RawContentElem → List ResponseContent
  | [] => []
  | raw :: rest =>
      match raw.type with
      | "text" => ResponseContent.text raw.text :: unmarshalResponseContentLoop rest
      | "tool_use" =>
          ResponseContent.toolUse raw.id raw.name raw.input
            :: unmarshalResponseContentLoop rest
      | "thinking" =>
          ResponseContent.thinking raw.thinking raw.signature
            :: unmarshalResponseContentLoop rest
      | "redacted_thinking" =>
          ResponseContent.redactedThinking raw.data :: unmarshalResponseContentLoop rest
      | "server_tool_use" =>
          ResponseContent.serverToolUse raw.id raw.name
            :: unmarshalResponseContentLoop rest
      | "mcp_tool_use" =>
          ResponseContent.mcpToolUse raw.id raw.name raw.serverName
            :: unmarshalResponseContentLoop rest
      | "mcp_tool_result" =>
          ResponseContent.mcpToolResult raw.toolUseID raw.isError
            :: unmarshalResponseContentLoop rest
      | "container_upload" =>
          ResponseContent.containerUpload raw.fileID :: unmarshalResponseContentLoop rest
      | "web_search_tool_result" =>
          ResponseContent.webSearchToolResult raw.toolUseID
            :: unmarshalResponseContentLoop rest
      | "web_search_result" =>
          ResponseContent.webSearchResult raw.title raw.url
            :: unmarshalResponseContentLoop rest
      | "code_execution_tool_result" =>
          ResponseContent.codeExecutionToolResult raw.toolUseID
            :: unmarshalResponseContentLoop rest
      | "code_execution_result" =>
          ResponseContent.codeExecutionResult raw.stdout raw.stderr raw.returnCode
            :: unmarshalResponseContentLoop rest
      | "code_execution_output" =>
          ResponseContent.codeExecutionOutput raw.fileID
            :: unmarshalResponseContentLoop rest
      | _ => unmarshalResponseContentLoop rest

/-- UnmarshalResponseContent is `UnmarshalResponseContent`
(`src/unnamed/part_010` lines 576-661) over an already-parsed element list;
its only Go error path is the `json.Unmarshal` of the outer array, which
precedes this model's input, so the loop itself always succeeds. -/
def UnmarshalResponseContent (rawContents : List RawContentElem) :
    Except String (List ResponseContent) :=
  .ok (unmarshalResponseContentLoop rawContents)

/-- concatF is the concatenation of a fragment list in arrival order — the
reference notion the streaming claims compare accumulated buffers against. -/
def concatF : List String → String
  | [] => ""
  | d :: ds => d ++ concatF ds

/-- toolInputFold replays the `input_json_delta` buffer updates of
`processStreamEvent` over a fragment list: each step clears the buffer when
it currently equals the two-character placeholder, then appends the
fragment. -/
def toolInputFold (buf : String) : List String → String
  | [] => buf
  | d :: ds => toolInputFold ((if buf = "\x7b\x7d" then "" else buf) ++ d) ds

/-- frame is one complete SSE event frame: name line, data line, blank
line. -/
def frame (e : String) (p : EventPayload) : List SSELine :=
  [SSELine.event e, SSELine.data p, SSELine.blank]

/-- msgStartPayload is a `message_start` data payload carrying the given
envelope. -/
def msgStartPayload (env : CreateMessageResponse) : EventPayload :=
  { message := env }

/-- textBlockStartPayload is a `content_block_start` data payload opening a
text block. -/
def textBlockStartPayload : EventPayload :=
  { contentBlock := { type := "text" } }

/-- toolBlockStartPayload is a `content_block_start` data payload opening a
tool_use block with the given id and name. -/
def toolBlockStartPayload (id name : String) : EventPayload :=
  { contentBlock := { type := "tool_use", id := id, name := name } }

/-- textDeltaPayload is a `content_block_delta` data payload carrying a
`text_delta` fragment. -/
def textDeltaPayload (s : String) : EventPayload :=
  { delta := { type := "text_delta", text := s } }

/-- inputJSONDeltaPayload is a `content_block_delta` data payload carrying an
`input_json_delta` fragment. -/
def inputJSONDeltaPayload (s : String) : EventPayload :=
  { delta := { type := "input_json_delta", partialJSON := s } }

/-- textStreamLines is the SSE stream delivering exactly one text content
block: `message_start`, `content_block_start(text)`, one `text_delta` frame
per fragment, `content_block_stop`, `message_stop`. -/
def textStreamLines (env : CreateMessageResponse) (ds : List String) : List SSELine :=
  frame "message_start" (msgStartPayload env)
    ++ frame "content_block_start" textBlockStartPayload
    ++ (ds.flatMap fun d => frame "content_block_delta" (textDeltaPayload d))
    ++ frame "content_block_stop" {}
    ++ frame "message_stop" {}

/-- toolStreamLines is the SSE stream delivering exactly one tool_use content
block: `message_start`, `content_block_start(tool_use)`, one
`input_json_delta` frame per fragment, `content_block_stop`,
`message_stop`. -/
def toolStreamLines (env : CreateMessageResponse) (id name : String)
    (ds : List String) : List SSELine :=
  frame "message_start" (msgStartPayload env)
    ++ frame "content_block_start" (toolBlockStartPayload id name)
    ++ (ds.flatMap fun d => frame "content_block_delta" (inputJSONDeltaPayload d))
    ++ frame "content_block_stop" {}
    ++ frame "message_stop" {}

/-- alwaysContinues holds when the registered callback (if any) answers true
on every snapshot it could be offered. -/
def alwaysContinues (fn : Option StreamFunc) : Prop :=
  ∀ (f : StreamFunc) (r : StreamResponse), fn = some f → f (some r) none = true

/-- systemPromptOf is the spec's description of system extraction: the text
parts of the system-role messages, in original order, one block per part. -/
def systemPromptOf (messages : List Message) : List TextBlockParam :=
  (messages.filter fun m => m.role == RoleSystem).flatMap fun m =>
    m.parts.filterMap fun p =>
      match p with
      | Part.text t => some { text := t }
      | _ => none

/-- wireMessagesOf is the spec's description of the wire list: exactly the
non-system messages, in original order, with roles mapped to the wire
constants and parts converted in order. -/
def wireMessagesOf (messages : List Message) : List MessageParam :=
  (messages.filter fun m => !(m.role == RoleSystem)).map fun m =>
    { role := if m.role == RoleUser then MessageParamRoleUser else MessageParamRoleAssistant
      content := m.parts.map convertContentPart }

/-- blockToPart is the spec-side mapping of one SDK content block to a
provider-agnostic part: text and tool_use are representable, everything else
is not. -/
def blockToPart (b : ContentBlockUnion) : Option Part :=
  match b.type with
  | "text" => some (Part.text b.text)
  | "tool_use" => some (Part.toolCall b.toolUseID b.name b.input)
  | _ => none

/-- representableBlock decides whether one SDK content block is one the
provider-agnostic model can represent. -/
def representableBlock (b : ContentBlockUnion) : Bool :=
  b.type == "text" || b.type == "tool_use"

/-- decodeResponseContent is the spec-side single-element decode of the
response content array: `some` exactly on the thirteen recognized type tags,
`none` (dropped) on every other element. -/
def decodeResponseContent (raw : RawContentElem) : Option ResponseContent :=
  match raw.type with
  | "text" => some (ResponseContent.text raw.text)
  | "tool_use" => some (ResponseContent.toolUse raw.id raw.name raw.input)
  | "thinking" => some (ResponseContent.thinking raw.thinking raw.signature)
  | "redacted_thinking" => some (ResponseContent.redactedThinking raw.data)
  | "server_tool_use" => some (ResponseContent.serverToolUse raw.id raw.name)
  | "mcp_tool_use" => some (ResponseContent.mcpToolUse raw.id raw.name raw.serverName)
  | "mcp_tool_result" => some (ResponseContent.mcpToolResult raw.toolUseID raw.isError)
  | "container_upload" => some (ResponseContent.containerUpload raw.fileID)
  | "web_search_tool_result" =>
      some (ResponseContent.webSearchToolResult raw.toolUseID)
  | "web_search_result" => some (ResponseContent.webSearchResult raw.title raw.url)
  | "code_execution_tool_result" =>
      some (ResponseContent.codeExecutionToolResult raw.toolUseID)
  | "code_execution_result" =>
      some (ResponseContent.codeExecutionResult raw.stdout raw.stderr raw.returnCode)
  | "code_execution_output" => some (ResponseContent.codeExecutionOutput raw.fileID)
  | _ => none

/-- sseLoop_append lets a run be split at any intermediate point reached
without error or cancellation. -/
theorem sseLoop_append (fn : Option StreamFunc) (L1 L2 : List SSELine)
    (cur cur1 : CurrentEvent) (st st1 : StreamState)
    (h : runLines fn L1 cur st = some (cur1, st1)) :
    sseLoop fn (L1 ++ L2) cur st = sseLoop fn L2 cur1 st1 := by
  induction L1 generalizing cur st with
  | nil =>
      simp only [runLines, Option.some.injEq, Prod.mk.injEq] at h
      obtain ⟨h1, h2⟩ := h
      subst h1; subst h2
      simp
  | cons l rest ih =>
      simp only [runLines] at h
      cases hs : scanLine fn l cur st with
      | cont c s =>
          rw [hs] at h
          rw [List.cons_append]
          simp only [sseLoop, hs]
          exact ih c s h
      | cancel s => rw [hs] at h; simp at h
      | fail e => rw [hs] at h; simp at h

/-- sseLoop_run_all closes a run whose lines were all consumed without error
or cancellation: the final response is built from the state reached. -/
theorem sseLoop_run_all (fn : Option StreamFunc) (L : List SSELine)
    (cur cur1 : CurrentEvent) (st st1 : StreamState)
    (h : runLines fn L cur st = some (cur1, st1)) :
    sseLoop fn L cur st = buildFinalResponse st1 := by
  have := sseLoop_append fn L [] cur cur1 st st1 h
  rw [List.append_nil] at this
  rw [this]
  rfl

/-- sseLoop_frame_cont steps the loop over one complete frame whose event
processing continues. -/
theorem sseLoop_frame_cont (fn : Option StreamFunc) (e : String) (p : EventPayload)
    (rest : List SSELine) (cur : CurrentEvent) (st st1 : StreamState)
    (he : e ≠ "")
    (h : processStreamEvent fn { event := e, data := p } st = .ok (true, st1)) :
    sseLoop fn (frame e p ++ rest) cur st = sseLoop fn rest {} st1 := by
  simp [frame, sseLoop, scanLine, he, h]

/-- sseLoop_frame_cont_nil steps the loop over a final complete frame whose
event processing continues: the stream ends and the final response is
built. -/
theorem sseLoop_frame_cont_nil (fn : Option StreamFunc) (e : String) (p : EventPayload)
    (cur : CurrentEvent) (st st1 : StreamState)
    (he : e ≠ "")
    (h : processStreamEvent fn { event := e, data := p } st = .ok (true, st1)) :
    sseLoop fn (frame e p) cur st = buildFinalResponse st1 := by
  simp [frame, sseLoop, scanLine, he, h]

/-- sseLoop_frame_cancel steps the loop over one complete frame whose event
processing requests cancellation: the loop breaks and builds the final
response. -/
theorem sseLoop_frame_cancel (fn : Option StreamFunc) (e : String) (p : EventPayload)
    (rest : List SSELine) (cur : CurrentEvent) (st st1 : StreamState)
    (he : e ≠ "")
    (h : processStreamEvent fn { event := e, data := p } st = .ok (false, st1)) :
    sseLoop fn (frame e p ++ rest) cur st = buildFinalResponse st1 := by
  simp [frame, sseLoop, scanLine, he, h]

/-- sseLoop_frame_fail steps the loop over one complete frame whose event
processing fails: the loop aborts with that error. -/
theorem sseLoop_frame_fail (fn : Option StreamFunc) (e : String) (p : EventPayload)
    (rest : List SSELine) (cur : CurrentEvent) (st : StreamState) (err : String)
    (he : e ≠ "")
    (h : processStreamEvent fn { event := e, data := p } st = .error err) :
    sseLoop fn (frame e p ++ rest) cur st = .error err := by
  simp [frame, sseLoop, scanLine, he, h]

/-- pse_message_start evaluates the `message_start` handler. -/
theorem pse_message_start (fn : Option StreamFunc) (env : CreateMessageResponse)
    (st : StreamState) :
    processStreamEvent fn { event := "message_start", data := msgStartPayload env } st
      = .ok (true, { st with anthropicResponse := some env, responseID := env.id }) := rfl

/-- pse_text_block_start evaluates the `content_block_start` handler on a
text block: the text builder is reset. -/
theorem pse_text_block_start (fn : Option StreamFunc) (st : StreamState) :
    processStreamEvent fn { event := "content_block_start", data := textBlockStartPayload } st
      = .ok (true, { st with currentTextBuilder := "" }) := rfl

/-- pse_tool_block_start evaluates the `content_block_start` handler on a
tool_use block: the accumulator opens with the placeholder input. -/
theorem pse_tool_block_start (fn : Option StreamFunc) (id name : String)
    (st : StreamState) :
    processStreamEvent fn
        { event := "content_block_start", data := toolBlockStartPayload id name } st
      = .ok (true, { st with currentToolCall := some ⟨id, name, "\x7b\x7d"⟩ }) := rfl

/-- pse_text_delta_cont evaluates the `text_delta` handler when the callback
(if any) continues: the fragment is appended to the builder. -/
theorem pse_text_delta_cont (fn : Option StreamFunc) (s : String) (st : StreamState)
    (hfn : alwaysContinues fn) :
    processStreamEvent fn { event := "content_block_delta", data := textDeltaPayload s } st
      = .ok (true, { st with currentTextBuilder := st.currentTextBuilder ++ s }) := by
  cases fn with
  | none => rfl
  | some f =>
      have hf := hfn f (textDeltaSnapshot
        { st with currentTextBuilder := st.currentTextBuilder ++ s }) rfl
      simp [processStreamEvent, textDeltaPayload, hf]

/-- pse_input_json_delta evaluates the `input_json_delta` handler on an open
accumulator: clear-if-placeholder, then append. -/
theorem pse_input_json_delta (fn : Option StreamFunc) (s : String) (st : StreamState)
    (tc : ToolCallPart) (htc : st.currentToolCall = some tc) :
    processStreamEvent fn
        { event := "content_block_delta", data := inputJSONDeltaPayload s } st
      = .ok (true, { st with currentToolCall := some ⟨tc.id, tc.name,
          (if tc.input = "\x7b\x7d" then "" else tc.input) ++ s⟩ }) := by
  simp [processStreamEvent, inputJSONDeltaPayload, htc]

/-- pse_content_block_stop evaluates the `content_block_stop` handler in
closed form: a `TextPart` is appended exactly when the text builder is
non-empty, a `ToolCallPart` exactly when an accumulator is open, the two
independently of each other; both buffer slots end cleared. -/
theorem pse_content_block_stop (fn : Option StreamFunc) (p : EventPayload)
    (st : StreamState) :
    processStreamEvent fn { event := "content_block_stop", data := p } st
      = .ok (true,
          { st with
            streamingParts := st.streamingParts
              ++ (if st.currentTextBuilder.length > 0 then
                    [Part.text st.currentTextBuilder]
                  else [])
              ++ (match st.currentToolCall with
                  | some tc => [Part.toolCall tc.id tc.name tc.input]
                  | none => [])
            currentTextBuilder := ""
            currentToolCall := none }) := by
  obtain ⟨ar, sp, tb, tcall, rid⟩ := st
  simp only [processStreamEvent]
  by_cases hb : tb.length > 0
  · cases tcall with
    | some tc => simp [hb, List.append_assoc]
    | none => simp [hb]
  · have hbe : tb = "" := by
      cases tb with
      | mk l =>
          cases l with
          | nil => rfl
          | cons a as => simp [String.length] at hb
    subst hbe
    cases tcall with
    | some tc => simp
    | none => simp

/-- pse_message_stop evaluates the `message_stop` handler: the callback's
answer (if any) is discarded and the state is unchanged. -/
theorem pse_message_stop (fn : Option StreamFunc) (p : EventPayload)
    (st : StreamState) :
    processStreamEvent fn { event := "message_stop", data := p } st
      = .ok (true, st) := by
  cases fn <;> rfl

/-- sseLoop_textDeltas runs the loop over a section of `text_delta` frames
under a never-cancelling callback: the fragments are appended to the text
builder in arrival order and nothing else changes. -/
theorem sseLoop_textDeltas (fn : Option StreamFunc) (hfn : alwaysContinues fn)
    (ds : List String) :
    ∀ (st : StreamState) (rest : List SSELine),
    sseLoop fn ((ds.flatMap fun d => frame "content_block_delta" (textDeltaPayload d)) ++ rest)
        {} st
      = sseLoop fn rest {} { st with currentTextBuilder := st.currentTextBuilder ++ concatF ds } := by
  induction ds with
  | nil =>
      intro st rest
      simp [concatF, String.append_empty]
  | cons d ds ih =>
      intro st rest
      rw [List.flatMap_cons, List.append_assoc]
      rw [sseLoop_frame_cont fn "content_block_delta" (textDeltaPayload d) _ {} st _
        (by decide) (pse_text_delta_cont fn d st hfn)]
      rw [ih]
      simp [concatF, String.append_assoc]

/-- sseLoop_toolDeltas runs the loop over a section of `input_json_delta`
frames against an open tool-call accumulator: the input buffer evolves by
`toolInputFold` and nothing else changes. -/
theorem sseLoop_toolDeltas (fn : Option StreamFunc) (ds : List String) :
    ∀ (buf : String) (st : StreamState) (id name : String) (rest : List SSELine),
    st.currentToolCall = some ⟨id, name, buf⟩ →
    sseLoop fn
        ((ds.flatMap fun d => frame "content_block_delta" (inputJSONDeltaPayload d)) ++ rest)
        {} st
      = sseLoop fn rest {} { st with currentToolCall := some ⟨id, name, toolInputFold buf ds⟩ } := by
  induction ds with
  | nil =>
      intro buf st id name rest htc
      simp [toolInputFold, ← htc]
  | cons d ds ih =>
      intro buf st id name rest htc
      rw [List.flatMap_cons, List.append_assoc]
      rw [sseLoop_frame_cont fn "content_block_delta" (inputJSONDeltaPayload d) _ {} st _
        (by decide) (pse_input_json_delta fn d st ⟨id, name, buf⟩ htc)]
      rw [ih ((if buf = "\x7b\x7d" then "" else buf) ++ d) _ id name rest (by simp)]
      simp [toolInputFold]

/-- textStream_run evaluates the whole streaming call on a single-text-block
stream with non-empty accumulated text under a never-cancelling callback. -/
theorem textStream_run (fn : Option StreamFunc) (hfn : alwaysContinues fn)
    (env : CreateMessageResponse) (ds : List String) (hne : concatF ds ≠ "") :
    parseSSEStream fn (textStreamLines env ds)
      = .ok { id := env.id
              message := { role := RoleAssistant, parts := [Part.text (concatF ds)] }
              provider := "anthropic"
              raw := some env } := by
  unfold parseSSEStream textStreamLines
  simp only [List.append_assoc]
  rw [sseLoop_frame_cont fn "message_start" (msgStartPayload env) _ {} {} _
    (by decide) (pse_message_start fn env {})]
  rw [sseLoop_frame_cont fn "content_block_start" textBlockStartPayload _ {} _ _
    (by decide) (pse_text_block_start fn _)]
  rw [sseLoop_textDeltas fn hfn ds _ _]
  have hemp : ("" : String) ++ concatF ds = concatF ds := String.empty_append _
  have hlen : (concatF ds).length > 0 := by
    cases h : concatF ds with
    | mk l =>
        cases l with
        | nil => exact absurd h hne
        | cons a as => simp [String.length]
  rw [sseLoop_frame_cont fn "content_block_stop" {} _ {} _ _
    (by decide) (pse_content_block_stop fn {} _)]
  rw [sseLoop_frame_cont_nil fn "message_stop" {} {} _ _
    (by decide) (pse_message_stop fn {} _)]
  simp [buildFinalResponse, hemp, hlen]

/-- C1: an SSE stream that delivers one text content block as a
`message_start`, a `content_block_start(text)`, a sequence of
`content_block_delta(text_delta)` frames and a `content_block_stop` followed
by `message_stop`, whose fragments concatenate to a non-empty string and
whose callback (if registered) never cancels, produces a final Response with
exactly one TextPart holding the concatenation in arrival order; any two
fragmentations of the same non-empty string yield the same final Response. -/
theorem c1_text_accumulation (fn : Option StreamFunc) (hfn : alwaysContinues fn)
    (env : CreateMessageResponse) (ds : List String) (hne : concatF ds ≠ "") :
    parseSSEStream fn (textStreamLines env ds)
      = .ok { id := env.id
              message := { role := RoleAssistant, parts := [Part.text (concatF ds)] }
              provider := "anthropic"
              raw := some env }
    ∧ ∀ ds2 : List String, concatF ds2 = concatF ds →
        parseSSEStream fn (textStreamLines env ds2)
          = parseSSEStream fn (textStreamLines env ds) := by
  refine ⟨textStream_run fn hfn env ds hne, ?_⟩
  intro ds2 h2
  rw [textStream_run fn hfn env ds hne,
    textStream_run fn hfn env ds2 (by rw [h2]; exact hne), h2]

/-- c1_witness instantiates C1 at the two fragmentations of
"Hello, world!" the spec names. -/
theorem c1_witness :
    parseSSEStream none (textStreamLines {} ["Hel", "lo, world!"])
      = .ok { id := ""
              message := { role := RoleAssistant, parts := [Part.text "Hello, world!"] }
              provider := "anthropic"
              raw := some {} }
    ∧ parseSSEStream none (textStreamLines {} ["H", "ello, ", "world!"])
      = parseSSEStream none (textStreamLines {} ["Hel", "lo, world!"]) := by
  have h := c1_text_accumulation none (fun f r hf => Option.noConfusion hf) {}
    ["Hel", "lo, world!"] (by decide)
  exact ⟨h.1, h.2 ["H", "ello, ", "world!"] (by decide)⟩

/-- toolStream_run evaluates the whole streaming call on a
single-tool-use-block stream, for any callback: the finalized input buffer
is the `toolInputFold` of the placeholder over the fragments (the
`input_json_delta` handler never consults the callback). -/
theorem toolStream_run (fn : Option StreamFunc) (env : CreateMessageResponse)
    (id name : String) (ds : List String) :
    parseSSEStream fn (toolStreamLines env id name ds)
      = .ok { id := env.id
              message := { role := RoleAssistant
                           parts := [Part.toolCall id name (toolInputFold "\x7b\x7d" ds)] }
              provider := "anthropic"
              raw := some env } := by
  unfold parseSSEStream toolStreamLines
  simp only [List.append_assoc]
  rw [sseLoop_frame_cont fn "message_start" (msgStartPayload env) _ {} {} _
    (by decide) (pse_message_start fn env {})]
  rw [sseLoop_frame_cont fn "content_block_start" (toolBlockStartPayload id name) _ {} _ _
    (by decide) (pse_tool_block_start fn id name _)]
  rw [sseLoop_toolDeltas fn ds "\x7b\x7d" _ id name _ (by simp)]
  rw [sseLoop_frame_cont fn "content_block_stop" {} _ {} _ _
    (by decide) (pse_content_block_stop fn {} _)]
  rw [sseLoop_frame_cont_nil fn "message_stop" {} {} _ _
    (by decide) (pse_message_stop fn {} _)]
  simp [buildFinalResponse]

/-- toolInputFold_concat shows the buffer fold is plain concatenation as
long as no intermediate buffer value hits the placeholder again. -/
theorem toolInputFold_concat (ds : List String) :
    ∀ buf : String, (∀ i : Nat, i < ds.length → buf ++ concatF (ds.take i) ≠ "\x7b\x7d") →
    toolInputFold buf ds = buf ++ concatF ds := by
  induction ds with
  | nil =>
      intro buf _
      simp [toolInputFold, concatF, String.append_empty]
  | cons d ds ih =>
      intro buf h
      have h0 : buf ≠ "\x7b\x7d" := by
        have := h 0 (by simp)
        simpa [concatF, String.append_empty] using this
      simp only [toolInputFold, if_neg h0]
      rw [ih (buf ++ d) ?_]
      · rw [concatF, String.append_assoc]
      · intro i hi
        have := h (i + 1) (by simpa using Nat.succ_lt_succ hi)
        simpa [concatF, String.append_assoc] using this

/-- toolInputFold_eq_concat: starting from the seeded placeholder, the first
fragment clears it, and if no non-empty proper fragment front concatenates
back to the placeholder, the fold is exactly the fragment concatenation. -/
theorem toolInputFold_eq_concat (d : String) (ds : List String)
    (hpre : ∀ i : Nat, 0 < i → i < (d :: ds).length →
      concatF ((d :: ds).take i) ≠ "\x7b\x7d") :
    toolInputFold "\x7b\x7d" (d :: ds) = concatF (d :: ds) := by
  have hstep : toolInputFold "\x7b\x7d" (d :: ds) = toolInputFold d ds := by
    simp [toolInputFold, String.empty_append]
  rw [hstep, toolInputFold_concat ds d ?_]
  · rw [concatF]
  · intro i hi
    have := hpre (i + 1) (Nat.succ_pos i) (by simpa using Nat.succ_lt_succ hi)
    simpa [concatF] using this

/-- C2 (amended): for a streamed tool_use content block with a non-empty
`input_json_delta` fragment sequence, the placeholder is cleared before the
first fragment is appended, and — provided no non-empty proper front of the
fragment sequence concatenates to exactly the two-character placeholder, in
which case the handler clears the buffer again — the finalized
ToolCallPart input equals the concatenation of the fragments in arrival
order. -/
theorem c2_tool_input_reassembly (fn : Option StreamFunc) (env : CreateMessageResponse)
    (id name : String) (d : String) (ds : List String)
    (hpre : ∀ i : Nat, 0 < i → i < (d :: ds).length →
      concatF ((d :: ds).take i) ≠ "\x7b\x7d") :
    parseSSEStream fn (toolStreamLines env id name (d :: ds))
      = .ok { id := env.id
              message := { role := RoleAssistant
                           parts := [Part.toolCall id name (concatF (d :: ds))] }
              provider := "anthropic"
              raw := some env } := by
  rw [toolStream_run, toolInputFold_eq_concat d ds hpre]

/-- c2_witness instantiates the amended C2 at the spec's fragment pair,
yielding the JSON document for the object with key location and value SF. -/
theorem c2_witness :
    parseSSEStream none
        (toolStreamLines {} "toolu_1" "get_weather" ["\x7b\"locat", "ion\": \"SF\"\x7d"])
      = .ok { id := ""
              message := { role := RoleAssistant
                           parts := [Part.toolCall "toolu_1" "get_weather"
                             "\x7b\"location\": \"SF\"\x7d"] }
              provider := "anthropic"
              raw := some {} } := by
  have h := c2_tool_input_reassembly none {} "toolu_1" "get_weather"
    "\x7b\"locat" ["ion\": \"SF\"\x7d"] ?_
  · exact h
  · intro i h1 h2
    simp [List.length] at h2
    have hi : i = 1 := by omega
    subst hi
    decide

/-- c2_counterexample refutes C2 as stated: with fragments whose first
fragment is itself the two-character placeholder, the handler clears the
accumulated buffer a second time, so the finalized input is "x" and not the
fragment concatenation. -/
theorem c2_counterexample :
    parseSSEStream none (toolStreamLines {} "t1" "f" ["\x7b\x7d", "x"])
      = .ok { id := ""
              message := { role := RoleAssistant, parts := [Part.toolCall "t1" "f" "x"] }
              provider := "anthropic"
              raw := some {} }
    ∧ ("x" : String) ≠ concatF ["\x7b\x7d", "x"] := by
  constructor
  · rfl
  · decide

/-- C10: a streamed tool_use content block opened by `content_block_start`
and closed by `content_block_stop` with no intervening `input_json_delta`
keeps the seeded placeholder, so its finalized input is exactly the
two-character empty JSON object and not the empty string. -/
theorem c10_empty_tool_input (fn : Option StreamFunc) (env : CreateMessageResponse)
    (id name : String) :
    parseSSEStream fn (toolStreamLines env id name [])
      = .ok { id := env.id
              message := { role := RoleAssistant, parts := [Part.toolCall id name "\x7b\x7d"] }
              provider := "anthropic"
              raw := some env } := by
  have h := toolStream_run fn env id name []
  simpa [toolInputFold] using h

/-- pse_text_delta_cancel evaluates the `text_delta` handler when the
registered callback answers false on the snapshot: the handler reports
`shouldContinue = false`, with the fragment already appended to the (still
open, not finalized) text builder. -/
theorem pse_text_delta_cancel (f : StreamFunc) (s : String) (st : StreamState)
    (hcb : f (some (textDeltaSnapshot
      { st with currentTextBuilder := st.currentTextBuilder ++ s })) none = false) :
    processStreamEvent (some f)
        { event := "content_block_delta", data := textDeltaPayload s } st
      = .ok (false, { st with currentTextBuilder := st.currentTextBuilder ++ s }) := by
  simp [processStreamEvent, textDeltaPayload, hcb]

/-- C3: when the registered callback returns false on a `text_delta`
invocation after a `message_start` has been processed, the streaming call
stops consuming further events at that point (the remaining lines are
irrelevant) and returns, without error, a Response whose parts are exactly
the parts finalized before the cancellation — the open text buffer is not
included. -/
theorem c3_callback_cancellation (f : StreamFunc) (pre rest : List SSELine)
    (s : String) (cur : CurrentEvent) (st : StreamState) (env : CreateMessageResponse)
    (hpre : runLines (some f) pre {} {} = some (cur, st))
    (hmsg : st.anthropicResponse = some env)
    (hcb : f (some (textDeltaSnapshot
      { st with currentTextBuilder := st.currentTextBuilder ++ s })) none = false) :
    parseSSEStream (some f) (pre ++ frame "content_block_delta" (textDeltaPayload s) ++ rest)
      = .ok { id := st.responseID
              message := { role := RoleAssistant, parts := st.streamingParts }
              provider := "anthropic"
              raw := st.anthropicResponse } := by
  unfold parseSSEStream
  rw [List.append_assoc]
  rw [sseLoop_append (some f) pre _ {} cur {} st hpre]
  rw [sseLoop_frame_cancel (some f) "content_block_delta" (textDeltaPayload s) rest cur st _
    (by decide) (pse_text_delta_cancel f s st hcb)]
  simp [buildFinalResponse, hmsg]

/-- c3_witness instantiates C3: a constantly-false callback cancels on the
first fragment of a stream that has started a message, and the call returns
the empty-parts Response without error. -/
theorem c3_witness :
    parseSSEStream (some fun _ _ => false)
        (frame "message_start" (msgStartPayload { id := "msg_1" })
          ++ frame "content_block_delta" (textDeltaPayload "Hi") ++ [])
      = .ok { id := "msg_1"
              message := { role := RoleAssistant, parts := [] }
              provider := "anthropic"
              raw := some { id := "msg_1" } } := by
  exact c3_callback_cancellation (fun _ _ => false) _ [] "Hi" {}
    { anthropicResponse := some { id := "msg_1" }, responseID := "msg_1" }
    { id := "msg_1" } rfl rfl rfl

/-- pse_unknown_event evaluates the dispatcher's default branch: any event
name outside the eight recognized ones yields the unknown-event error. -/
theorem pse_unknown_event (fn : Option StreamFunc) (e : String) (p : EventPayload)
    (st : StreamState)
    (h1 : e ≠ "message_start") (h2 : e ≠ "content_block_start")
    (h3 : e ≠ "content_block_delta") (h4 : e ≠ "content_block_stop")
    (h5 : e ≠ "message_delta") (h6 : e ≠ "message_stop")
    (h7 : e ≠ "ping") (h8 : e ≠ "error") :
    processStreamEvent fn { event := e, data := p } st
      = .error ("unknown stream event type: " ++ e) := by
  simp only [processStreamEvent]

/-- C4: an SSE stream containing a complete frame whose event name lies
outside the recognized set fails immediately with the unknown-event error —
whatever lines follow — and the streaming call returns no Response. -/
theorem c4_unknown_event (fn : Option StreamFunc) (pre rest : List SSELine)
    (e : String) (p : EventPayload) (cur : CurrentEvent) (st : StreamState)
    (hpre : runLines fn pre {} {} = some (cur, st))
    (hne : e ≠ "")
    (hunk : e ∉ (["message_start", "content_block_start", "content_block_delta",
      "content_block_stop", "message_delta", "message_stop", "ping", "error"] :
      List String)) :
    parseSSEStream fn (pre ++ frame e p ++ rest)
      = .error ("unknown stream event type: " ++ e) := by
  simp only [List.mem_cons, List.not_mem_nil, or_false, not_or] at hunk
  obtain ⟨h1, h2, h3, h4, h5, h6, h7, h8⟩ := hunk
  unfold parseSSEStream
  rw [List.append_assoc]
  rw [sseLoop_append fn pre _ {} cur {} st hpre]
  rw [sseLoop_frame_fail fn e p rest cur st _ hne
    (pse_unknown_event fn e p st h1 h2 h3 h4 h5 h6 h7 h8)]

/-- c4_witness instantiates C4 at a lone frame of the event name bogus. -/
theorem c4_witness :
    parseSSEStream none (frame "bogus" {}) = .error "unknown stream event type: bogus" := by
  exact c4_unknown_event none [] [] "bogus" {} {} {} rfl (by decide) (by decide)

/-- C5: a stream whose lines are all consumed without any `message_start`
having been processed (the working envelope is still absent at stream end)
makes the streaming call return no Response and the no-message error. -/
theorem c5_no_message_start (fn : Option StreamFunc) (lines : List SSELine)
    (cur : CurrentEvent) (st : StreamState)
    (hrun : runLines fn lines {} {} = some (cur, st))
    (hnone : st.anthropicResponse = none) :
    parseSSEStream fn lines = .error "no message received in stream" := by
  unfold parseSSEStream
  rw [sseLoop_run_all fn lines {} cur {} st hrun]
  simp [buildFinalResponse, hnone]

/-- c5_witness instantiates C5 at a well-formed stream of only
content_block events. -/
theorem c5_witness :
    parseSSEStream none (frame "content_block_start" textBlockStartPayload
        ++ frame "content_block_delta" (textDeltaPayload "hi")
        ++ frame "content_block_stop" {})
      = .error "no message received in stream" := by
  exact c5_no_message_start none _ {}
    { anthropicResponse := none, streamingParts := [Part.text "hi"]
      currentTextBuilder := "", currentToolCall := none, responseID := "" }
    rfl rfl

/-- C6 (amended): the `content_block_stop` handler finalizes the two buffer
slots independently: a TextPart is appended exactly when the text builder is
non-empty and a ToolCallPart exactly when a tool-call accumulator is open —
so both can fire on one stop event, and an empty text block (or a stop with
nothing open) finalizes nothing, rather than exactly one firing per stop. -/
theorem c6_stop_finalization (fn : Option StreamFunc) (p : EventPayload)
    (st : StreamState) :
    processStreamEvent fn { event := "content_block_stop", data := p } st
      = .ok (true,
          { st with
            streamingParts := st.streamingParts
              ++ (if st.currentTextBuilder.length > 0 then
                    [Part.text st.currentTextBuilder]
                  else [])
              ++ (match st.currentToolCall with
                  | some tc => [Part.toolCall tc.id tc.name tc.input]
                  | none => [])
            currentTextBuilder := ""
            currentToolCall := none }) :=
  pse_content_block_stop fn p st

/-- c6_counterexample refutes C6 as stated: a text block opened and closed
with no delta leaves the text buffer empty, so its `content_block_stop`
fires no finalization at all (the final Response has zero parts), against
the claim that exactly one finalization fires per stop event. -/
theorem c6_counterexample :
    parseSSEStream none (textStreamLines {} [])
      = .ok { id := ""
              message := { role := RoleAssistant, parts := [] }
              provider := "anthropic"
              raw := some {} } := by
  rfl

/-- convertSystemParts_ok: a successful system-part conversion returns
exactly the text parts, in order, one block each. -/
theorem convertSystemParts_ok (i : Nat) (ps : List Part) (blocks : List TextBlockParam)
    (h : convertSystemParts i ps = .ok blocks) :
    blocks = ps.filterMap fun p =>
      match p with
      | Part.text t => some { text := t }
      | _ => none := by
  induction ps generalizing blocks with
  | nil =>
      simp only [convertSystemParts] at h
      simp only [Except.ok.injEq] at h
      subst h
      simp
  | cons p ps ih =>
      cases p with
      | text t =>
          simp only [convertSystemParts] at h
          cases hr : convertSystemParts i ps with
          | error e => rw [hr] at h; exact absurd h (by simp)
          | ok rest =>
              rw [hr] at h
              simp only [Except.ok.injEq] at h
              subst h
              simp [ih rest hr]
      | toolCall id name input => simp [convertSystemParts] at h
      | toolResult a b c d => simp [convertSystemParts] at h

/-- convertMessagesGo_ok characterizes every successful run of the SDK
converter loop: the returned system prompt and wire list extend the
accumulators by exactly the spec-side extraction of the remaining
messages. -/
theorem convertMessagesGo_ok (msgs : List Message) :
    ∀ (i : Nat) (sys : List TextBlockParam) (out : List MessageParam)
      (sys2 : List TextBlockParam) (out2 : List MessageParam),
    convertMessagesGo i sys out msgs = .ok (sys2, out2) →
    sys2 = sys ++ systemPromptOf msgs ∧ out2 = out ++ wireMessagesOf msgs := by
  induction msgs with
  | nil =>
      intro i sys out sys2 out2 h
      simp only [convertMessagesGo, Except.ok.injEq, Prod.mk.injEq] at h
      obtain ⟨h1, h2⟩ := h
      subst h1; subst h2
      simp [systemPromptOf, wireMessagesOf]
  | cons m ms ih =>
      intro i sys out sys2 out2 h
      simp only [convertMessagesGo] at h
      by_cases hs : m.role = RoleSystem
      · rw [if_pos hs] at h
        cases hcs : convertSystemParts i m.parts with
        | error e => rw [hcs] at h; exact absurd h (by simp)
        | ok blocks =>
            rw [hcs] at h
            obtain ⟨ih1, ih2⟩ := ih (i + 1) (sys ++ blocks) out sys2 out2 h
            constructor
            · rw [ih1, convertSystemParts_ok i m.parts blocks hcs]
              simp [systemPromptOf, hs, List.append_assoc]
            · rw [ih2]
              simp [wireMessagesOf, hs]
      · rw [if_neg hs] at h
        by_cases hu : m.role = RoleUser
        · rw [if_pos hu] at h
          obtain ⟨ih1, ih2⟩ := ih (i + 1) sys _ sys2 out2 h
          constructor
          · rw [ih1]; simp [systemPromptOf, hs]
          · rw [ih2]
            simp [wireMessagesOf, List.filter_cons, beq_iff_eq, hs, hu, RoleUser, RoleSystem,
              RoleAssistant, List.append_assoc]
        · rw [if_neg hu] at h
          by_cases ha : m.role = RoleAssistant
          · rw [if_pos ha] at h
            obtain ⟨ih1, ih2⟩ := ih (i + 1) sys _ sys2 out2 h
            constructor
            · rw [ih1]; simp [systemPromptOf, hs]
            · rw [ih2]
              simp [wireMessagesOf, List.filter_cons, beq_iff_eq, hs, hu, ha, RoleUser,
                RoleSystem, RoleAssistant, List.append_assoc]
          · rw [if_neg ha] at h
            exact absurd h (by simp)

/-- C7: whenever the SDK converter succeeds, the system prompt is exactly
the text parts of the system-role messages in original order (one block per
part) and the wire list is exactly the non-system messages in original
order with their roles and parts mapped. -/
theorem c7_system_extraction (messages : List Message) (sys : List TextBlockParam)
    (out : List MessageParam)
    (hok : convertMessages messages = .ok (sys, out)) :
    sys = systemPromptOf messages ∧ out = wireMessagesOf messages := by
  have h := convertMessagesGo_ok messages 0 [] [] sys out hok
  simpa using h

/-- c7_witness instantiates C7 at [System a, System b, User c]: the system
prompt is exactly the two texts in order and the wire list has length 1. -/
theorem c7_witness :
    convertMessages [⟨RoleSystem, [Part.text "a"]⟩, ⟨RoleSystem, [Part.text "b"]⟩,
        ⟨RoleUser, [Part.text "c"]⟩]
      = .ok ([{ text := "a" }, { text := "b" }],
             [{ role := "user", content := [ContentBlockParamUnion.ofText "c"] }])
    ∧ systemPromptOf [⟨RoleSystem, [Part.text "a"]⟩, ⟨RoleSystem, [Part.text "b"]⟩,
        ⟨RoleUser, [Part.text "c"]⟩]
      = [{ text := "a" }, { text := "b" }]
    ∧ (wireMessagesOf [⟨RoleSystem, [Part.text "a"]⟩, ⟨RoleSystem, [Part.text "b"]⟩,
        ⟨RoleUser, [Part.text "c"]⟩]).length = 1 := by
  refine ⟨rfl, ?_, ?_⟩
  · exact (c7_system_extraction [⟨RoleSystem, [Part.text "a"]⟩,
      ⟨RoleSystem, [Part.text "b"]⟩, ⟨RoleUser, [Part.text "c"]⟩]
      [{ text := "a" }, { text := "b" }]
      [{ role := "user", content := [ContentBlockParamUnion.ofText "c"] }] rfl).1.symm
  · have h := (c7_system_extraction [⟨RoleSystem, [Part.text "a"]⟩,
      ⟨RoleSystem, [Part.text "b"]⟩, ⟨RoleUser, [Part.text "c"]⟩]
      [{ text := "a" }, { text := "b" }]
      [{ role := "user", content := [ContentBlockParamUnion.ofText "c"] }] rfl).2
    rw [← h]
    rfl

/-- append_split_mid re-associates a converter error around the fixed
bracket-and-provider-tag separator. -/
theorem append_split_mid (t x a b : String) (hab : a = "] anthropic: " ++ b) :
    "[message " ++ t ++ a ++ x = "[message " ++ t ++ "] anthropic: " ++ (b ++ x) := by
  subst hab
  simp [String.append_assoc]

/-- convertSystemParts_error: every failure of the SDK converter's
system-part loop is tagged with the enclosing message index. -/
theorem convertSystemParts_error (i : Nat) (ps : List Part) (e : String)
    (h : convertSystemParts i ps = .error e) :
    ∃ rest, e = "[message " ++ toString i ++ "] anthropic: " ++ rest := by
  induction ps with
  | nil => simp [convertSystemParts] at h
  | cons p ps ih =>
      cases p with
      | text t =>
          simp only [convertSystemParts] at h
          cases hr : convertSystemParts i ps with
          | error e2 =>
              rw [hr] at h
              simp only [Except.error.injEq] at h
              subst h
              exact ih hr
          | ok rest => rw [hr] at h; exact absurd h (by simp)
      | toolCall a b c =>
          simp only [convertSystemParts, Except.error.injEq] at h
          subst h
          exact ⟨"unsupported message part type: " ++ partTypeName (Part.toolCall a b c),
            append_split_mid (toString i) (partTypeName (Part.toolCall a b c)) _ _ rfl⟩
      | toolResult a b c d =>
          simp only [convertSystemParts, Except.error.injEq] at h
          subst h
          exact ⟨"unsupported message part type: " ++ partTypeName (Part.toolResult a b c d),
            append_split_mid (toString i) (partTypeName (Part.toolResult a b c d)) _ _ rfl⟩

/-- convertMessagesGo_error: every failure of the SDK converter loop is
tagged with the absolute index of the offending message. -/
theorem convertMessagesGo_error (msgs : List Message) :
    ∀ (i : Nat) (sys : List TextBlockParam) (out : List MessageParam) (e : String),
    convertMessagesGo i sys out msgs = .error e →
    ∃ k rest, k < msgs.length
      ∧ e = "[message " ++ toString (i + k) ++ "] anthropic: " ++ rest := by
  induction msgs with
  | nil => intro i sys out e h; simp [convertMessagesGo] at h
  | cons m ms ih =>
      intro i sys out e h
      simp only [convertMessagesGo] at h
      by_cases hs : m.role = RoleSystem
      · rw [if_pos hs] at h
        cases hcs : convertSystemParts i m.parts with
        | error e2 =>
            rw [hcs] at h
            simp only [Except.error.injEq] at h
            subst h
            obtain ⟨rest, hrest⟩ := convertSystemParts_error i m.parts e2 hcs
            exact ⟨0, rest, by simp, by simpa using hrest⟩
        | ok blocks =>
            rw [hcs] at h
            obtain ⟨k, rest, hk, he⟩ := ih (i + 1) _ _ _ h
            refine ⟨k + 1, rest, by simpa using Nat.succ_lt_succ hk, ?_⟩
            have heq : i + 1 + k = i + (k + 1) := by omega
            rw [← heq]
            exact he
      · rw [if_neg hs] at h
        by_cases hu : m.role = RoleUser
        · rw [if_pos hu] at h
          obtain ⟨k, rest, hk, he⟩ := ih (i + 1) _ _ _ h
          refine ⟨k + 1, rest, by simpa using Nat.succ_lt_succ hk, ?_⟩
          have heq : i + 1 + k = i + (k + 1) := by omega
          rw [← heq]
          exact he
        · rw [if_neg hu] at h
          by_cases ha : m.role = RoleAssistant
          · rw [if_pos ha] at h
            obtain ⟨k, rest, hk, he⟩ := ih (i + 1) _ _ _ h
            refine ⟨k + 1, rest, by simpa using Nat.succ_lt_succ hk, ?_⟩
            have heq : i + 1 + k = i + (k + 1) := by omega
            rw [← heq]
            exact he
          · rw [if_neg ha] at h
            simp only [Except.error.injEq] at h
            subst h
            exact ⟨0, "unsupported message role: " ++ m.role, by simp,
              by simpa using append_split_mid (toString i) m.role _ _ rfl⟩

/-- C8 (amended): every failure of the SDK-based converter (the
`convertMessages` at lines 1419-1499) is an error whose text opens with the
bracket tag naming the offending message's index (the part-index variant of
that tag exists in the source only as unreachable code, since every Part
kind is handled); the legacy converter at lines 579-647 instead reports its
errors without any index. -/
theorem c8_error_indexing (messages : List Message) (e : String)
    (herr : convertMessages messages = .error e) :
    ∃ i rest, i < messages.length
      ∧ e = "[message " ++ toString i ++ "] anthropic: " ++ rest := by
  have h := convertMessagesGo_error messages 0 [] [] e herr
  simpa using h

/-- c8_witness instantiates the amended C8 at a list whose second message
has an unsupported role. -/
theorem c8_witness :
    ∃ i rest,
      i < ([⟨RoleUser, [Part.text "hi"]⟩, ⟨"boss", []⟩] : List Message).length
      ∧ ("[message 1] anthropic: unsupported message role: boss" : String)
        = "[message " ++ toString i ++ "] anthropic: " ++ rest := by
  exact c8_error_indexing [⟨RoleUser, [Part.text "hi"]⟩, ⟨"boss", []⟩]
    "[message 1] anthropic: unsupported message role: boss" rfl

/-- c8_counterexample refutes C8 as stated against the legacy converter
(cited as a source of the claim): the failure on an unsupported role
produces an error that contains no digit at all, so it cannot identify the
offending message's index. -/
theorem c8_counterexample :
    legacy.convertMessages (fun _ => true) [{ role := "moderator", parts := [Part.text "x"] }]
      = .error "anthropic: unsupported message role: moderator"
    ∧ ("anthropic: unsupported message role: moderator" : String).data.any
        (·.isDigit) = false := by
  constructor
  · rfl
  · decide

/-- convertBlocksLoop_spec characterizes the decode loop of
`convertMessageToResponse`: the parts extend the accumulator by the
spec-side filterMap of the blocks, and the error list grows by one entry per
unrepresentable block. -/
theorem convertBlocksLoop_spec (bs : List ContentBlockUnion) :
    ∀ (i : Nat) (parts : List Part) (errs : List String),
    (convertBlocksLoop i parts errs bs).1 = parts ++ bs.filterMap blockToPart
    ∧ (convertBlocksLoop i parts errs bs).2.length
        = errs.length + (bs.filter fun b => !representableBlock b).length := by
  induction bs with
  | nil => intro i parts errs; simp [convertBlocksLoop]
  | cons b bs ih =>
      intro i parts errs
      by_cases ht : b.type = "text"
      · have hstep : convertBlocksLoop i parts errs (b :: bs)
            = convertBlocksLoop (i + 1) (parts ++ [Part.text b.text]) errs bs := by
          simp [convertBlocksLoop, ht]
        rw [hstep]
        obtain ⟨p1, p2⟩ := ih (i + 1) (parts ++ [Part.text b.text]) errs
        constructor
        · rw [p1]
          simp [List.filterMap_cons, blockToPart, ht, List.append_assoc]
        · rw [p2]
          simp [List.filter_cons, representableBlock, ht]
      · by_cases hu : b.type = "tool_use"
        · have hstep : convertBlocksLoop i parts errs (b :: bs)
              = convertBlocksLoop (i + 1)
                  (parts ++ [Part.toolCall b.toolUseID b.name b.input]) errs bs := by
            simp [convertBlocksLoop, ht, hu]
          rw [hstep]
          obtain ⟨p1, p2⟩ := ih (i + 1) (parts ++ [Part.toolCall b.toolUseID b.name b.input]) errs
          constructor
          · rw [p1]
            simp [List.filterMap_cons, blockToPart, ht, hu, List.append_assoc]
          · rw [p2]
            simp [List.filter_cons, representableBlock, ht, hu]
        · have hstep : convertBlocksLoop i parts errs (b :: bs)
              = convertBlocksLoop (i + 1) parts
                  (errs ++ ["anthropic: unsupported content block type at index "
                    ++ toString i ++ ": " ++ formatContentBlock b]) bs := by
            simp [convertBlocksLoop, ht, hu]
          rw [hstep]
          obtain ⟨p1, p2⟩ := ih (i + 1) parts
            (errs ++ ["anthropic: unsupported content block type at index "
              ++ toString i ++ ": " ++ formatContentBlock b])
          constructor
          · rw [p1]
            simp [List.filterMap_cons, blockToPart, ht, hu]
          · rw [p2]
            simp [List.filter_cons, representableBlock, ht, hu]
            omega

/-- unmarshalLoop_filterMap relates the decode loop to the spec-side
per-element decode: recognized tags are decoded in order, unrecognized
elements are dropped. -/
theorem unmarshalLoop_filterMap (raws : List RawContentElem) :
    unmarshalResponseContentLoop raws = raws.filterMap decodeResponseContent := by
  induction raws with
  | nil => rfl
  | cons raw rest ih =>
      rw [List.filterMap_cons]
      by_cases h1 : raw.type = "text"
      · simp [unmarshalResponseContentLoop, decodeResponseContent, h1, ih]
      · by_cases h2 : raw.type = "tool_use"
        · simp [unmarshalResponseContentLoop, decodeResponseContent, h1, h2, ih]
        · by_cases h3 : raw.type = "thinking"
          · simp [unmarshalResponseContentLoop, decodeResponseContent, h1, h2, h3, ih]
          · by_cases h4 : raw.type = "redacted_thinking"
            · simp [unmarshalResponseContentLoop, decodeResponseContent, h1, h2, h3, h4, ih]
            · by_cases h5 : raw.type = "server_tool_use"
              · simp [unmarshalResponseContentLoop, decodeResponseContent, h1, h2, h3, h4, h5, ih]
              · by_cases h6 : raw.type = "mcp_tool_use"
                · simp [unmarshalResponseContentLoop, decodeResponseContent, h1, h2, h3, h4, h5, h6, ih]
                · by_cases h7 : raw.type = "mcp_tool_result"
                  · simp [unmarshalResponseContentLoop, decodeResponseContent, h1, h2, h3, h4, h5, h6, h7, ih]
                  · by_cases h8 : raw.type = "container_upload"
                    · simp [unmarshalResponseContentLoop, decodeResponseContent, h1, h2, h3, h4, h5, h6, h7, h8, ih]
                    · by_cases h9 : raw.type = "web_search_tool_result"
                      · simp [unmarshalResponseContentLoop, decodeResponseContent, h1, h2, h3, h4, h5, h6, h7, h8, h9, ih]
                      · by_cases h10 : raw.type = "web_search_result"
                        · simp [unmarshalResponseContentLoop, decodeResponseContent, h1, h2, h3, h4, h5, h6, h7, h8, h9, h10, ih]
                        · by_cases h11 : raw.type = "code_execution_tool_result"
                          · simp [unmarshalResponseContentLoop, decodeResponseContent, h1, h2, h3, h4, h5, h6, h7, h8, h9, h10, h11, ih]
                          · by_cases h12 : raw.type = "code_execution_result"
                            · simp [unmarshalResponseContentLoop, decodeResponseContent, h1, h2, h3, h4, h5, h6, h7, h8, h9, h10, h11, h12, ih]
                            · by_cases h13 : raw.type = "code_execution_output"
                              · simp [unmarshalResponseContentLoop, decodeResponseContent, h1, h2, h3, h4, h5, h6, h7, h8, h9, h10, h11, h12, h13, ih]
                              · simp [unmarshalResponseContentLoop, decodeResponseContent, h1, h2, h3, h4, h5, h6, h7, h8, h9, h10, h11, h12, h13, ih]

/-- C9: the non-streaming decode path is best-effort on both layers. The
block-to-part conversion of `convertMessageToResponse` maps text blocks to
TextParts and tool_use blocks to ToolCallParts in order, always returns the
(partial) Response, collects exactly one error per unrepresentable block —
so the joined error is non-nil exactly when such a block occurs — and the
block decoder `UnmarshalResponseContent` silently drops every element whose
type tag it does not recognize, without error. -/
theorem c9_best_effort_decode (msg : AnthMessage) (raws : List RawContentElem) :
    (convertMessageToResponse msg).1
      = { id := msg.id
          message := { role := RoleAssistant, parts := msg.content.filterMap blockToPart }
          provider := "anthropic"
          raw := msg }
    ∧ ((convertMessageToResponse msg).2 = [] ↔ ∀ b ∈ msg.content, representableBlock b)
    ∧ (convertMessageToResponse msg).2.length
        = (msg.content.filter fun b => !representableBlock b).length
    ∧ UnmarshalResponseContent raws = .ok (raws.filterMap decodeResponseContent) := by
  obtain ⟨p1, p2⟩ := convertBlocksLoop_spec msg.content 0 [] []
  refine ⟨?_, ?_, ?_, ?_⟩
  · simp only [convertMessageToResponse]
    rw [p1]
    simp
  · simp only [convertMessageToResponse]
    rw [← List.length_eq_zero, p2]
    simp [List.filter_eq_nil_iff]
  · simp only [convertMessageToResponse]
    rw [p2]
    simp
  · simp [UnmarshalResponseContent, unmarshalLoop_filterMap]

end Llms
